import Mathlib

/-!
Verification development for the Streamlit image generator / editor app
(`app.py`).  The Python source is shallowly embedded below: pure string
manipulation becomes Lean string functions, the duck-typed remote
responses become explicit structures with `Option` fields (a `none`
marks a missing attribute, i.e. an access that would raise), the
Streamlit button handlers become pure functions from the session state
and an oracle of remote responses to a new state plus the lists of
remote calls, warnings, errors and displayed images they produce.
Byte strings are modelled as `List Nat`.
-/

namespace StabImage

/-- Left-to-right, non-overlapping replacement of every occurrence of
`pat` by `repl`, mirroring the semantics of Python `str.replace` used
at `PROMPT_TEMPLATES[dept].replace("{USER_PROMPT}", raw)`.  The fuel
argument makes the recursion structural; each step consumes at least
one character, so fuel equal to the length of the scanned list is
always enough and the `0, s => s` branch is never reached from
`pyReplace`. -/
def replFuel (pat repl : List Char) : Nat → List Char → List Char
  | _, [] => []
  | 0, s => s
  | n + 1, c :: rest =>
      if !pat.isEmpty && pat.isPrefixOf (c :: rest) then
        repl ++ replFuel pat repl n ((c :: rest).drop pat.length)
      else
        c :: replFuel pat repl n rest

/-- String version of `replFuel`: the embedding of Python `str.replace`. -/
def pyReplace (s pat repl : String) : String :=
  String.mk (replFuel pat.data repl.data s.data.length s.data)

/-- Embedding of Python `str.strip()`: drop whitespace from both ends. -/
def pyStrip (s : String) : String :=
  String.mk (((s.data.dropWhile Char.isWhitespace).reverse.dropWhile Char.isWhitespace).reverse)

/-- Embedding of Python `str.lower()`. -/
def pyLower (s : String) : String :=
  String.mk (s.data.map Char.toLower)

/-- Split a character list on the slash character, auxiliary to the
embedding of `uploaded_file.type.split("/")`. -/
def slashSegsAux (cur : List Char) : List Char → List (List Char)
  | [] => [cur.reverse]
  | c :: rest =>
      if c = '/' then cur.reverse :: slashSegsAux [] rest
      else slashSegsAux (c :: cur) rest

/-- Embedding of Python `s.split("/")`. -/
def pySplitSlash (s : String) : List String :=
  (slashSegsAux [] s.data).map String.mk

def PROMPT_TEMPLATES : List (String × String) := [
  ("Marketing", "\nYou are a senior AI prompt engineer creating polished prompts for marketing and advertising visuals.\n\nYour job:\n- Transform the raw input into a compelling, professional, campaign-ready image prompt.\n- Expand with persuasive details about:\n  • Background and setting (modern, lifestyle, commercial, aspirational)\n  • Lighting and atmosphere (studio lights, golden hour, cinematic)\n  • Style (photorealistic, cinematic, product photography, lifestyle branding)\n  • Perspective and composition (wide shot, close-up, dramatic angles)\n  • Mood, tone, and branding suitability (premium, sleek, aspirational)\n\nRules:\n- Stay faithful to the user’s idea but elevate it for ads, social media, or presentations.\n- Output only the final refined image prompt.\n\nUser’s raw prompt:\n\"\x7bUSER_PROMPT\x7d\"\n\nRefined marketing image prompt:\n"),
  ("Design", "\nYou are a senior AI prompt engineer supporting a creative design team.\n\nYour job:\n- Expand raw input into a visually inspiring, design-oriented image prompt.\n- Add imaginative details about:\n  • Artistic styles (minimalist, abstract, futuristic, flat, 3D render, watercolor, digital illustration)\n  • Color schemes, palettes, textures, and patterns\n  • Composition and balance (symmetry, negative space, creative framing)\n  • Lighting and atmosphere (soft glow, vibrant contrast, surreal shading)\n  • Perspective (isometric, top-down, wide shot, close-up)\n\nRules:\n- Keep fidelity to the idea but make it highly creative and visually unique.\n- Output only the final refined image prompt.\n\nUser’s raw prompt:\n\"\x7bUSER_PROMPT\x7d\"\n\nRefined design image prompt:\n"),
  ("General", "\nYou are an expert AI prompt engineer specialized in creating vivid and descriptive image prompts.\n\nYour job:\n- Expand the user’s input into a detailed, clear prompt for an image generation model.\n- Add missing details such as:\n  • Background and setting\n  • Lighting and mood\n  • Style and realism level\n  • Perspective and composition\n\nRules:\n- Stay true to the user’s intent.\n- Keep language concise, descriptive, and expressive.\n- Output only the final refined image prompt.\n\nUser’s raw prompt:\n\"\x7bUSER_PROMPT\x7d\"\n\nRefined general image prompt:\n"),
  ("DPEX", "\nYou are a senior AI prompt engineer creating refined prompts for IT and technology-related visuals.\n\nYour job:\n- Transform the raw input into a detailed, professional, and technology-focused image prompt.\n- Expand with contextual details about:\n  • Technology environments (server rooms, data centers, cloud systems, coding workspaces)\n  • Digital elements (network diagrams, futuristic UIs, holograms, cybersecurity visuals)\n  • People in IT roles (developers, engineers, admins, tech support, collaboration)\n  • Tone (innovative, technical, futuristic, professional)\n  • Composition (screens, servers, code on monitors, abstract digital patterns)\n  • Lighting and effects (LED glow, cyberpunk tones, neon highlights, modern tech ambiance)\n\nRules:\n- Ensure images are suitable for IT presentations, product demos, training, technical documentation, and digital transformation campaigns.\n- Stay true to the user’s intent but emphasize a technological and innovative look.\n- Output only the final refined image prompt.\n\nUser’s raw prompt:\n\"\x7bUSER_PROMPT\x7d\"\n\nRefined DPEX image prompt:\n"),
  ("HR", "\nYou are a senior AI prompt engineer creating refined prompts for human resources and workplace-related visuals.\n\nYour job:\n- Transform the raw input into a detailed, professional, and HR-focused image prompt.\n- Expand with contextual details about:\n  • Workplace settings (modern office, meeting rooms, open workspaces, onboarding sessions)\n  • People interactions (interviews, teamwork, training, collaboration, diversity and inclusion)\n  • Themes (employee engagement, professional growth, recruitment, performance evaluation)\n  • Composition (groups in discussion, managers mentoring, collaborative workshops)\n  • Lighting and tone (bright, welcoming, professional, inclusive)\n\nRules:\n- Ensure images are suitable for HR presentations, recruitment campaigns, internal training, or employee engagement material.\n- Stay true to the user’s intent but emphasize people, culture, and workplace positivity.\n- Output only the final refined image prompt.\n\nUser’s raw prompt:\n\"\x7bUSER_PROMPT\x7d\"\n\nRefined HR image prompt:\n"),
  ("Business", "\nYou are a senior AI prompt engineer creating refined prompts for business and corporate visuals.\n\nYour job:\n- Transform the raw input into a detailed, professional, and business-oriented image prompt.\n- Expand with contextual details about:\n  • Corporate settings (boardrooms, skyscrapers, modern offices, networking events)\n  • Business activities (presentations, negotiations, brainstorming sessions, teamwork)\n  • People (executives, entrepreneurs, consultants, diverse teams, global collaboration)\n  • Tone (professional, ambitious, strategic, innovative)\n  • Composition (formal meetings, handshake deals, conference tables, city skyline backgrounds)\n  • Lighting and atmosphere (clean, modern, premium, professional)\n\nRules:\n- Ensure images are suitable for corporate branding, investor decks, strategy sessions, or professional reports.\n- Stay true to the user’s intent but emphasize professionalism, ambition, and success.\n- Output only the final refined image prompt.\n\nUser’s raw prompt:\n\"\x7bUSER_PROMPT\x7d\"\n\nRefined business image prompt:\n")]

def STYLE_DESCRIPTIONS : List (String × String) := [
  ("None", "No special styling — keep the image natural, faithful to the user’s idea."),
  ("Smart", "A clean, balanced, and polished look. Professional yet neutral, visually appealing without strong artistic bias."),
  ("Cinematic", "Film-style composition with professional lighting. Wide dynamic range, dramatic highlights, storytelling feel."),
  ("Creative", "Playful, imaginative, and experimental. Bold artistic choices, unexpected elements, and expressive color use."),
  ("Bokeh", "Photography style with shallow depth of field. Subject in sharp focus with soft, dreamy, blurred backgrounds."),
  ("Macro", "Extreme close-up photography. High detail, textures visible, shallow focus highlighting minute features."),
  ("Illustration", "Hand-drawn or digitally illustrated style. Clear outlines, stylized shading, expressive and artistic."),
  ("3D Render", "Photorealistic or stylized CGI. Crisp geometry, depth, shadows, and reflective surfaces with realistic rendering."),
  ("Fashion", "High-end editorial photography. Stylish, glamorous poses, bold makeup, controlled lighting, and modern aesthetic."),
  ("Minimalist", "Simple and uncluttered. Few elements, large negative space, flat or muted color palette, clean composition."),
  ("Moody", "Dark, atmospheric, and emotional. Strong shadows, high contrast, deep tones, cinematic ambiance."),
  ("Portrait", "Focus on the subject. Natural skin tones, shallow depth of field, close-up or waist-up framing, studio or natural lighting."),
  ("Stock Photo", "Professional, commercial-quality photo. Neutral subject matter, polished composition, business-friendly aesthetic."),
  ("Vibrant", "Bold, saturated colors. High contrast, energetic mood, eye-catching and lively presentation."),
  ("Pop Art", "Comic-book and pop-art inspired. Bold outlines, halftone patterns, flat vivid colors, high contrast, playful tone."),
  ("Vector", "Flat vector graphics. Smooth shapes, sharp edges, solid fills, and clean scalable style like logos or icons."),
  ("Watercolor", "Soft, fluid strokes with delicate blending and washed-out textures. Artistic and dreamy."),
  ("Oil Painting", "Rich, textured brushstrokes. Classic fine art look with deep color blending."),
  ("Charcoal", "Rough, sketchy textures with dark shading. Artistic, raw, dramatic effect."),
  ("Line Art", "Minimal monochrome outlines with clean, bold strokes. No shading, focus on form."),
  ("Anime", "Japanese animation style with vibrant colors, clean outlines, expressive features, and stylized proportions."),
  ("Cartoon", "Playful, exaggerated features, simplified shapes, bold outlines, and bright colors."),
  ("Pixel Art", "Retro digital art style. Small, pixel-based visuals resembling old-school video games."),
  ("Fantasy Art", "Epic fantasy scenes. Magical elements, mythical creatures, enchanted landscapes."),
  ("Surreal", "Dreamlike, bizarre imagery. Juxtaposes unexpected elements, bending reality."),
  ("Concept Art", "Imaginative, detailed artwork for games or films. Often moody and cinematic."),
  ("Cyberpunk", "Futuristic neon city vibes. High contrast, glowing lights, dark tones, sci-fi feel."),
  ("Steampunk", "Retro-futuristic style with gears, brass, Victorian aesthetics, and industrial design."),
  ("Neon Glow", "Bright neon outlines and glowing highlights. Futuristic, nightlife aesthetic."),
  ("Low Poly", "Simplified 3D style using flat geometric shapes and polygons."),
  ("Isometric", "3D look with isometric perspective. Often used for architecture, games, and diagrams."),
  ("Vintage", "Old-school, retro tones. Faded colors, film grain, sepia, or retro print feel."),
  ("Graffiti", "Urban street art style with bold colors, spray paint textures, and rebellious tone.")]

/-- The literal placeholder substituted inside every category template. -/
def USER_PROMPT_PLACEHOLDER : String := "\x7bUSER_PROMPT\x7d"

/-- The style clause appended to the refinement prompt when the selected
style is not the None sentinel: a blank-line separated paragraph. -/
def styleClause (desc : String) : String := "\n\nApply the style: " ++ desc

/-- Embedding of the composition of `refinement_prompt` in both tabs:
template lookup, literal placeholder replacement, and conditional
appending of the style clause. -/
def composePrompt (dept style raw : String) : String :=
  let t := (PROMPT_TEMPLATES.lookup dept).getD ""
  let p := pyReplace t USER_PROMPT_PLACEHOLDER raw
  if style ≠ "None" then p ++ styleClause ((STYLE_DESCRIPTIONS.lookup style).getD "")
  else p

/-- One content part of a structured remote response.  `inlineData` is
`none` when the part has no usable `inline_data` attribute (an access
that is falsy or raises in the Python source); likewise for `text`. -/
structure PartModel where
  inlineData : Option (List Nat)
  text : Option String
deriving DecidableEq, Repr

/-- Embedding of the Python truthiness test
`hasattr(part, "inline_data") and part.inline_data.data`. -/
def partHasData (p : PartModel) : Bool :=
  match p.inlineData with
  | some d => !d.isEmpty
  | none => false

/-- Embedding of the Python truthiness test
`hasattr(part, "text") and part.text`. -/
def partHasText (p : PartModel) : Bool :=
  match p.text with
  | some t => !(t == "")
  | none => false

/-- The scanning loop of `run_edit_flow` over `resp.candidates[0].content.parts`:
`out_bytes` and `text_fallback` start as `None` and each part may
overwrite one of them. -/
def scanLoop (ob : Option (List Nat)) (tf : Option String) :
    List PartModel → Option (List Nat) × Option String
  | [] => (ob, tf)
  | p :: rest =>
      if partHasData p then scanLoop p.inlineData tf rest
      else if partHasText p then scanLoop ob p.text rest
      else scanLoop ob tf rest

/-- Scan of all parts of a response, from the initial `None, None`. -/
def scanParts (parts : List PartModel) : Option (List Nat) × Option String :=
  scanLoop none none parts

/-- Python truthiness of the optional byte string `out_bytes`. -/
def truthyBytes : Option (List Nat) → Bool
  | some b => !b.isEmpty
  | none => false

/-- Python truthiness of the optional string `text_fallback`. -/
def truthyStr : Option String → Bool
  | some s => !(s == "")
  | none => false

/-- The warning emitted by `run_edit_flow` when the model returned text
instead of an image. -/
def warnMsg (t : String) : String :=
  "⚠️ Gemini did not return an image. Response: " ++ t

/-- The instruction framing prepended by `run_edit_flow`. -/
def editInstruction (prompt : String) : String :=
  "Edit the provided image as follows: " ++ prompt ++
    ". Always return only the edited image as inline PNG."

/-- Result of the extraction step of `run_edit_flow`: the warnings it
shows and the optional output bytes it returns. -/
structure EditFlowResult where
  warnings : List String
  output : Option (List Nat)
deriving DecidableEq, Repr

/-- The tail of `run_edit_flow` after the remote call: scan the parts,
return `out_bytes` when truthy, otherwise warn with `text_fallback`
when that is truthy, and return `None`. -/
def editExtract (parts : List PartModel) : EditFlowResult :=
  let s := scanParts parts
  if truthyBytes s.1 then { warnings := [], output := s.1 }
  else
    match s.2 with
    | some t => if !(t == "") then { warnings := [warnMsg t], output := none }
                else { warnings := [], output := none }
    | none => { warnings := [], output := none }

/-- The inner collection loop of the generate tab: append the data of
every part that passes the `inline_data` truthiness test to the
accumulator `generated_raws`. -/
def collectBinary (acc : List (List Nat)) : List PartModel → List (List Nat)
  | [] => acc
  | p :: rest =>
      if partHasData p then collectBinary (acc ++ [p.inlineData.getD []]) rest
      else collectBinary acc rest

/-- One part of a text-completion candidate; `text` is `none` when the
attribute access would raise. -/
structure TRPart where
  text : Option String
deriving DecidableEq, Repr

/-- Content of a text-completion candidate; `none` content means the
attribute access raises. -/
structure TRCandidate where
  content : Option (List TRPart)
deriving DecidableEq, Repr

/-- A structured response of the text-completion endpoint.  `text` is
`none` when `hasattr(resp, "text")` is false; `candidates` likewise;
`strRepr` models `str(resp)`. -/
structure TextResp where
  text : Option String
  candidates : Option (List TRCandidate)
  strRepr : String
deriving DecidableEq, Repr

/-- The guarded access `resp.candidates[0].content.parts[0].text` inside
the `try` of `safe_get_enhanced_text`: `some` when every step of the
chain succeeds, `none` when any step would raise. -/
def firstCandidateText (cs : List TRCandidate) : Option String :=
  match cs with
  | [] => none
  | c :: _ =>
      match c.content with
      | none => none
      | some parts =>
          match parts with
          | [] => none
          | p :: _ => p.text

/-- Truthiness of `hasattr(resp, "candidates") and resp.candidates`. -/
def truthyCandidates : Option (List TRCandidate) → Bool
  | some cs => !cs.isEmpty
  | none => false

/-- The attempted fallback access of `safe_get_enhanced_text`: the text
of the first part of the first candidate, when accessible. -/
def tryFirstPartText (r : TextResp) : Option String :=
  if truthyCandidates r.candidates then firstCandidateText (r.candidates.getD [])
  else none

/-- Embedding of `safe_get_enhanced_text`: the direct text when truthy,
else the first candidate part text when accessible, else `str(resp)`. -/
def safe_get_enhanced_text (r : TextResp) : String :=
  if truthyStr r.text then r.text.getD ""
  else
    match tryFirstPartText r with
    | some t => t
    | none => r.strRepr

/-- An entry of `st.session_state.generated_images`. -/
structure GenEntry where
  filename : String
  content : List Nat
deriving DecidableEq, Repr

/-- An entry of `st.session_state.edited_images`. -/
structure EditEntry where
  original : List Nat
  edited : List Nat
  prompt : String
deriving DecidableEq, Repr

/-- The per-session mutable state of the app. -/
structure SessionState where
  generated_images : List GenEntry
  edited_images : List EditEntry
deriving DecidableEq, Repr

/-- A binary content part sent to the remote image endpoint, as built by
`Part.from_data(mime_type=..., data=...)`. -/
structure BinaryPart where
  mime_type : String
  data : List Nat
deriving DecidableEq, Repr

/-- A remote call issued by an action handler. -/
inductive RemoteCall where
  | textModel (prompt : String)
  | imageModelText (prompt : String)
  | imageModelEdit (instruction : String) (image : BinaryPart)
deriving DecidableEq, Repr

/-- Everything observable that one button handler produces: the new
session state, the remote calls issued, the warnings and errors shown,
and the image byte strings displayed to the user. -/
structure ActionOutput where
  state : SessionState
  calls : List RemoteCall
  warnings : List String
  errors : List String
  displayed : List (List Nat)
deriving DecidableEq, Repr

/-- Filename pattern of the generate tab,
`f"{dept.lower()}_{style.lower()}_{timestamp}_{idx}.png"`. -/
def mkFilename (dept style ts : String) (idx : Nat) : String :=
  pyLower dept ++ "_" ++ pyLower style ++ "_" ++ ts ++ "_" ++ toString idx ++ ".png"

/-- The `for i in range(num_images)` loop of the generate tab under its
enclosing `try`: each oracle entry is the outcome of one
`IMAGE_MODEL.generate_content([enhanced_prompt])` call; an exception
aborts the loop, keeping the raws collected so far.  Returns the raws,
the image calls issued, and the caught exception message if any. -/
def genLoop (enh : String) :
    List (Except String (List PartModel)) →
      List (List Nat) × List RemoteCall × Option String
  | [] => ([], [], none)
  | Except.error e :: _ => ([], [RemoteCall.imageModelText enh], some e)
  | Except.ok parts :: rest =>
      let r := genLoop enh rest
      (collectBinary [] parts ++ r.1, RemoteCall.imageModelText enh :: r.2.1, r.2.2)

/-- Embedding of the generate-button handler (`gen_btn`): warn and stop
on a blank prompt, otherwise compose the refinement prompt, refine it,
run the generation loop on the first `numImages` oracle responses, and
append every collected raw image to `generated_images`. -/
def genAction (st : SessionState) (dept style raw : String) (numImages : Nat)
    (ts : String) (tresp : TextResp)
    (resps : List (Except String (List PartModel))) : ActionOutput :=
  if (pyStrip raw == "") then
    { state := st, calls := [], warnings := ["Please enter a prompt."],
      errors := [], displayed := [] }
  else
    let refinement := composePrompt dept style raw
    let enhanced := pyStrip (safe_get_enhanced_text tresp)
    let r := genLoop enhanced (resps.take numImages)
    let entries := r.1.enum.map (fun p => GenEntry.mk (mkFilename dept style ts p.1) p.2)
    { state := { st with generated_images := st.generated_images ++ entries },
      calls := RemoteCall.textModel refinement :: r.2.1,
      warnings := [],
      errors := match r.2.2 with
        | some e => ["⚠️ Image generation error: " ++ e]
        | none => [],
      displayed := r.1 }

/-- Embedding of the Python truthiness of `base_image`. -/
def truthyBase : Option (List Nat) → Bool
  | some b => !b.isEmpty
  | none => false

/-- The PNG binary part built inside `run_edit_flow`:
`Part.from_data(mime_type="image/png", data=base_bytes)` — the MIME
type is the fixed literal `"image/png"`. -/
def editImagePart (base_bytes : List Nat) : BinaryPart :=
  { mime_type := "image/png", data := base_bytes }

/-- Embedding of the edit-button handler (`edit_btn_upload`): warn and
stop when the base image or the instruction is missing, otherwise
compose and refine the prompt, call `run_edit_flow` once per requested
image, display the successful outputs and append them to
`edited_images`. -/
def editAction (st : SessionState) (dept style raw : String)
    (base : Option (List Nat)) (numImages : Nat) (tresp : TextResp)
    (resps : List (List PartModel)) : ActionOutput :=
  if !truthyBase base || (pyStrip raw == "") then
    { state := st, calls := [],
      warnings := ["Please upload an image and enter an instruction."],
      errors := [], displayed := [] }
  else
    let b := base.getD []
    let refinement := composePrompt dept style raw
    let enhanced := pyStrip (safe_get_enhanced_text tresp)
    let used := resps.take numImages
    let results := used.map editExtract
    let versions := results.filterMap EditFlowResult.output
    { state := { st with
        edited_images := st.edited_images ++
          versions.map (fun v => EditEntry.mk b v enhanced) },
      calls := RemoteCall.textModel refinement ::
        used.map (fun _ => RemoteCall.imageModelEdit (editInstruction enhanced) (editImagePart b)),
      warnings := (results.map EditFlowResult.warnings).flatten,
      errors := [],
      displayed := versions }

/-- MIME type detection of the upload handler:
`"image/" + uploaded_file.type.split("/")[-1]`. -/
def detectedMime (uploadedType : String) : String :=
  "image/" ++ ((pySplitSlash uploadedType).getLastD "")

/-- Embedding of the upload handling of the edit tab: a WebP upload is
re-encoded (RGB conversion then PNG save, both abstracted as function
parameters since they live in the imaging library), every other upload
passes through unchanged. -/
def processUpload (rgbConvert pngEncode : List Nat → List Nat)
    (uploadedType : String) (bytes : List Nat) : List Nat :=
  if detectedMime uploadedType == "image/webp" then pngEncode (rgbConvert bytes)
  else bytes

/-- The history display slice used for both stores:
`reversed(store[-20:])` — the last twenty entries, most recent first.
The store itself is not modified by the display. -/
def recentDisplay {α : Type} (store : List α) : List α :=
  (store.drop (store.length - 20)).reverse

/-- MIME types of the binary image parts carried by a list of remote
calls, in order. -/
def callImageMimes (cs : List RemoteCall) : List String :=
  cs.filterMap (fun c =>
    match c with
    | RemoteCall.imageModelEdit _ b => some b.mime_type
    | _ => none)

/-- Byte strings of the binary image parts carried by a list of remote
calls, in order. -/
def callImageDatas (cs : List RemoteCall) : List (List Nat) :=
  cs.filterMap (fun c =>
    match c with
    | RemoteCall.imageModelEdit _ b => some b.data
    | _ => none)

/-! ### Helper lemmas -/

theorem scanLoop_fst_eq (l : List PartModel) :
    ∀ ob tf, (scanLoop ob tf l).1 =
      (l.reverse.find? partHasData).elim ob (fun p => p.inlineData) := by
  induction l with
  | nil => intro ob tf; simp [scanLoop]
  | cons p rest ih =>
      intro ob tf
      simp only [scanLoop, List.reverse_cons, List.find?_append]
      by_cases hd : partHasData p
      · rw [if_pos hd, ih]
        cases hfind : rest.reverse.find? partHasData with
        | none => simp [List.find?, hd]
        | some q => simp
      · rw [if_neg hd]
        have hsingle : List.find? partHasData [p] = none := by
          simp [List.find?, Bool.of_not_eq_true hd]
        by_cases htx : partHasText p
        · rw [if_pos htx, ih]
          cases hfind : rest.reverse.find? partHasData with
          | none => simp [hfind, hsingle]
          | some q => simp [hfind]
        · rw [if_neg htx, ih]
          cases hfind : rest.reverse.find? partHasData with
          | none => simp [hfind, hsingle]
          | some q => simp [hfind]

/-- Predicate of the parts that overwrite `text_fallback` in the scan:
no usable binary data, but truthy text. -/
def textOnly (p : PartModel) : Bool := !partHasData p && partHasText p

theorem scanLoop_snd_eq (l : List PartModel) :
    ∀ ob tf, (scanLoop ob tf l).2 =
      (l.reverse.find? textOnly).elim tf (fun p => p.text) := by
  induction l with
  | nil => intro ob tf; simp [scanLoop]
  | cons p rest ih =>
      intro ob tf
      simp only [scanLoop, List.reverse_cons, List.find?_append]
      by_cases hd : partHasData p
      · have hsingle : List.find? textOnly [p] = none := by
          simp [List.find?, textOnly, hd]
        rw [if_pos hd, ih]
        cases hfind : rest.reverse.find? textOnly with
        | none => simp [hfind, hsingle]
        | some q => simp [hfind]
      · rw [if_neg hd]
        by_cases htx : partHasText p
        · have hsingle : List.find? textOnly [p] = some p := by
            simp [List.find?, textOnly, hd, htx]
          rw [if_pos htx, ih]
          cases hfind : rest.reverse.find? textOnly with
          | none => simp [hfind, hsingle]
          | some q => simp [hfind]
        · have hsingle : List.find? textOnly [p] = none := by
            simp [List.find?, textOnly, hd, htx]
          rw [if_neg htx, ih]
          cases hfind : rest.reverse.find? textOnly with
          | none => simp [hfind, hsingle]
          | some q => simp [hfind]

theorem collectBinary_acc (l : List PartModel) :
    ∀ acc, collectBinary acc l = acc ++ collectBinary [] l := by
  induction l with
  | nil => intro acc; simp [collectBinary]
  | cons p rest ih =>
      intro acc
      by_cases hd : partHasData p
      · simp only [collectBinary, if_pos hd]
        rw [ih (acc ++ [p.inlineData.getD []]), ih ([] ++ [p.inlineData.getD []])]
        simp
      · simp only [collectBinary, if_neg hd]
        exact ih acc

theorem collectBinary_eq_filter (l : List PartModel) :
    collectBinary [] l = (l.filter partHasData).map (fun p => p.inlineData.getD []) := by
  induction l with
  | nil => simp [collectBinary]
  | cons p rest ih =>
      by_cases hd : partHasData p
      · simp only [collectBinary, if_pos hd]
        rw [collectBinary_acc, ih]
        simp [List.filter_cons, hd]
      · simp only [collectBinary, if_neg hd]
        rw [ih]
        simp [List.filter_cons, Bool.of_not_eq_true hd]

theorem genLoop_error_spec (enh e : String) (rest : List (Except String (List PartModel))) :
    ∀ oks : List (List PartModel),
      genLoop enh (oks.map Except.ok ++ Except.error e :: rest) =
        ((oks.map (fun ps => collectBinary [] ps)).flatten,
         List.replicate (oks.length + 1) (RemoteCall.imageModelText enh),
         some e) := by
  intro oks
  induction oks with
  | nil => simp [genLoop, List.replicate]
  | cons ps more ih =>
      simp only [List.map_cons, List.cons_append, genLoop, List.append_eq]
      rw [ih]
      simp [List.replicate_succ]

theorem editExtract_output_eq (parts : List PartModel) :
    (editExtract parts).output =
      if truthyBytes (scanParts parts).1 then (scanParts parts).1 else none := by
  unfold editExtract
  by_cases hb : truthyBytes (scanParts parts).1
  · simp [hb]
  · simp only [Bool.not_eq_true] at hb
    cases h2 : (scanParts parts).2 with
    | none => simp [hb, h2]
    | some t => by_cases ht : t == "" <;> simp [hb, h2, ht]

theorem editExtract_warnings_eq (parts : List PartModel) :
    (editExtract parts).warnings =
      if truthyBytes (scanParts parts).1 then []
      else
        match (scanParts parts).2 with
        | some t => if !(t == "") then [warnMsg t] else []
        | none => [] := by
  unfold editExtract
  by_cases hb : truthyBytes (scanParts parts).1
  · simp [hb]
  · simp only [Bool.not_eq_true] at hb
    cases h2 : (scanParts parts).2 with
    | none => simp [hb, h2]
    | some t => by_cases ht : t == "" <;> simp [hb, h2, ht]

/-- C1 counterexample: on a response whose ordered parts carry the
binary payloads `[1]` and then `[2]`, the extraction step returns the
data of the second (last) binary part, not that of the first, because
the scanning loop overwrites `out_bytes` without breaking. -/
theorem extract_overwrites_earlier_binary_cex :
    (editExtract [PartModel.mk (some [1]) none, PartModel.mk (some [2]) none]).output = some [2] ∧
    (some [2] : Option (List Nat)) ≠ some [1] := by
  exact ⟨by decide, by decide⟩

/-- C1 amended: for every remote response, the edit-flow extraction
returns the binary data of the LAST part exposing non-empty inline
binary data (later binary parts overwrite earlier ones), and the
generate-tab loop collects the data of ALL binary parts in order. -/
theorem extract_last_binary_and_collect_all (parts : List PartModel) :
    (editExtract parts).output =
      (parts.reverse.find? partHasData).elim none (fun p => p.inlineData) ∧
    collectBinary [] parts =
      (parts.filter partHasData).map (fun p => p.inlineData.getD []) := by
  refine ⟨?_, collectBinary_eq_filter parts⟩
  have h1 : (scanParts parts).1 =
      (parts.reverse.find? partHasData).elim none (fun p => p.inlineData) :=
    scanLoop_fst_eq parts none none
  rw [editExtract_output_eq, h1]
  cases hfind : parts.reverse.find? partHasData with
  | none => simp [truthyBytes]
  | some q =>
      have hq : partHasData q = true := List.find?_some hfind
      simp only [Option.elim_some]
      cases hqd : q.inlineData with
      | none => simp [partHasData, hqd] at hq
      | some d =>
          simp only [partHasData, hqd] at hq
          simp [truthyBytes, hq]

/-- C9 counterexample: with zero usable parts the extraction result is
entirely empty, yet nothing user-visible is produced — the edit action
emits no warning, no error and displays nothing, so the failure is
silent rather than surfaced, contradicting the claim. -/
theorem extract_empty_silent_cex :
    editExtract ([] : List PartModel) = { warnings := [], output := none } ∧
    (editAction (SessionState.mk [] []) "General" "None" "x" (some [9]) 1
        (TextResp.mk (some "p") none "rep") [[]]).warnings = [] ∧
    (editAction (SessionState.mk [] []) "General" "None" "x" (some [9]) 1
        (TextResp.mk (some "p") none "rep") [[]]).errors = [] ∧
    (editAction (SessionState.mk [] []) "General" "None" "x" (some [9]) 1
        (TextResp.mk (some "p") none "rep") [[]]).displayed = [] := by
  exact ⟨by decide, by rfl, by rfl, by rfl⟩

theorem find?_textOnly_eq (l : List PartModel) (h : ∀ p ∈ l, partHasData p = false) :
    l.find? textOnly = l.find? partHasText := by
  induction l with
  | nil => rfl
  | cons p rest ih =>
      have hp : partHasData p = false := h p (List.mem_cons_self p rest)
      have hpt : textOnly p = partHasText p := by simp [textOnly, hp]
      by_cases hcase : partHasText p = true
      · rw [List.find?_cons_of_pos _ (by rw [hpt]; exact hcase),
          List.find?_cons_of_pos _ hcase]
      · rw [List.find?_cons_of_neg _ (by rw [hpt]; exact hcase),
          List.find?_cons_of_neg _ hcase]
        exact ih (fun x hx => h x (List.mem_cons_of_mem p hx))

/-- C9 amended: when no part carries non-empty inline binary data but
at least one part carries non-empty text, the extraction yields empty
image bytes and surfaces exactly the text of the LAST text-bearing
part (the first hit of `find?` on the reversed part list) as a
user-visible warning; when no part carries binary data or text, the
result is entirely empty and NO user-visible message is produced — the
failure is silent. -/
theorem extract_text_fallback_warning (parts : List PartModel)
    (hno : ∀ p ∈ parts, partHasData p = false) :
    ((∃ p ∈ parts, partHasText p = true) →
      ∃ q, parts.reverse.find? partHasText = some q ∧
        q ∈ parts ∧ partHasText q = true ∧
        (editExtract parts).output = none ∧
        (editExtract parts).warnings = [warnMsg (q.text.getD "")]) ∧
    ((∀ p ∈ parts, partHasText p = false) →
      editExtract parts = { warnings := [], output := none }) := by
  have hfind : parts.reverse.find? partHasData = none := by
    rw [List.find?_eq_none]
    intro x hx
    simp [hno x (List.mem_reverse.mp hx)]
  have h1 : (scanParts parts).1 = none := by
    have h := scanLoop_fst_eq parts none none
    rw [hfind, Option.elim_none] at h
    exact h
  have hscan2 : (scanParts parts).2 =
      (parts.reverse.find? textOnly).elim none (fun p => p.text) :=
    scanLoop_snd_eq parts none none
  have hrevno : ∀ x ∈ parts.reverse, partHasData x = false :=
    fun x hx => hno x (List.mem_reverse.mp hx)
  constructor
  · rintro ⟨q0, hq0, hq0t⟩
    have hsome : (parts.reverse.find? partHasText).isSome := by
      rw [List.find?_isSome]
      exact ⟨q0, List.mem_reverse.mpr hq0, hq0t⟩
    rcases Option.isSome_iff_exists.mp hsome with ⟨q, hq⟩
    have hqt : partHasText q = true := List.find?_some hq
    have hqmem : q ∈ parts := List.mem_reverse.mp (List.mem_of_find?_eq_some hq)
    have hto : parts.reverse.find? textOnly = some q := by
      rw [find?_textOnly_eq parts.reverse hrevno]
      exact hq
    cases hpd : q.text with
    | none => simp [partHasText, hpd] at hqt
    | some t =>
        have htne : (t == "") = false := by
          have hqt2 := hqt
          simp only [partHasText, hpd] at hqt2
          simpa using hqt2
        refine ⟨q, hq, hqmem, hqt, ?_, ?_⟩
        · rw [editExtract_output_eq, h1]; simp [truthyBytes]
        · rw [editExtract_warnings_eq, h1, hscan2, hto]
          simp [truthyBytes, hpd, htne]
  · intro hnt
    have hfindt : parts.reverse.find? textOnly = none := by
      rw [List.find?_eq_none]
      intro x hx
      simp [textOnly, hnt x (List.mem_reverse.mp hx)]
    have hout := editExtract_output_eq parts
    have hwar := editExtract_warnings_eq parts
    rw [h1] at hout hwar
    rw [hscan2, hfindt, Option.elim_none] at hwar
    simp only [truthyBytes, Bool.false_eq_true, if_false] at hout hwar
    cases hres : editExtract parts
    rw [hres] at hout hwar
    simp_all

/-- Witness for C9: two text-only parts yield no image bytes and a
warning carrying the text of the LAST one. -/
theorem extract_text_fallback_warning_witness :
    (editExtract [PartModel.mk none (some "first"),
      PartModel.mk none (some "second")]).output = none ∧
    (editExtract [PartModel.mk none (some "first"),
      PartModel.mk none (some "second")]).warnings = [warnMsg "second"] := by
  have h := (extract_text_fallback_warning
      [PartModel.mk none (some "first"), PartModel.mk none (some "second")]
      (by decide)).1 ⟨PartModel.mk none (some "first"), by decide, by decide⟩
  rcases h with ⟨q, hq, hmem, hqt, hout, hw⟩
  have hfind : ([PartModel.mk none (some "first"),
      PartModel.mk none (some "second")].reverse.find? partHasText) =
      some (PartModel.mk none (some "second")) := by decide
  rw [hfind] at hq
  have hqe : q = PartModel.mk none (some "second") := (Option.some.inj hq).symm
  rw [hqe] at hw
  exact ⟨hout, hw⟩

/-- C5: the text-refinement helper is total and returns, in order of
preference, the non-empty direct text of the response, else the text of
the first part of the first candidate when that access chain succeeds,
else the string representation of the whole response. -/
theorem safe_get_text_cascade (r : TextResp) :
    (∀ s, r.text = some s → s ≠ "" → safe_get_enhanced_text r = s) ∧
    (truthyStr r.text = false →
      ∀ t, tryFirstPartText r = some t → safe_get_enhanced_text r = t) ∧
    (truthyStr r.text = false → tryFirstPartText r = none →
      safe_get_enhanced_text r = r.strRepr) := by
  refine ⟨?_, ?_, ?_⟩
  · intro s hs hne
    have ht : truthyStr (some s) = true := by simp [truthyStr, hne]
    simp [safe_get_enhanced_text, hs, ht]
  · intro hf t ht
    simp [safe_get_enhanced_text, hf, ht]
  · intro hf hn
    simp [safe_get_enhanced_text, hf, hn]

/-- Witness for C5: a response with direct text returns that text. -/
theorem safe_get_text_cascade_witness :
    safe_get_enhanced_text (TextResp.mk (some "refined prompt") none "rep") = "refined prompt" :=
  (safe_get_text_cascade (TextResp.mk (some "refined prompt") none "rep")).1
    "refined prompt" rfl (by decide)

/-- C4: a whitespace-only raw instruction makes both button handlers
fail locally with an invalid-input warning; no remote call of any kind
is issued, nothing is displayed, and the session state is unchanged. -/
theorem blank_instruction_local_warning (st : SessionState) (dept style raw : String)
    (n : Nat) (ts : String) (tresp : TextResp)
    (gresps : List (Except String (List PartModel)))
    (base : Option (List Nat)) (eresps : List (List PartModel))
    (h : pyStrip raw = "") :
    genAction st dept style raw n ts tresp gresps =
      { state := st, calls := [], warnings := ["Please enter a prompt."],
        errors := [], displayed := [] } ∧
    editAction st dept style raw base n tresp eresps =
      { state := st, calls := [],
        warnings := ["Please upload an image and enter an instruction."],
        errors := [], displayed := [] } := by
  constructor
  · simp [genAction, h]
  · simp [editAction, h]

/-- Witness for C4: three spaces strip to the empty string and both
handlers warn without calling out. -/
theorem blank_instruction_local_warning_witness :
    genAction (SessionState.mk [] []) "General" "None" "   " 2 "ts"
        (TextResp.mk (some "p") none "rep") [] =
      { state := SessionState.mk [] [], calls := [],
        warnings := ["Please enter a prompt."], errors := [], displayed := [] } ∧
    editAction (SessionState.mk [] []) "General" "None" "   " (some [1]) 2
        (TextResp.mk (some "p") none "rep") [] =
      { state := SessionState.mk [] [], calls := [],
        warnings := ["Please upload an image and enter an instruction."],
        errors := [], displayed := [] } :=
  blank_instruction_local_warning (SessionState.mk [] []) "General" "None" "   " 2 "ts"
    (TextResp.mk (some "p") none "rep") [] (some [1]) [] (by decide)

/-- C3: with a non-empty raw instruction, composing with style "None"
yields exactly the category template with the instruction substituted
for the placeholder and no style clause, while any other style from the
style table appends that style's clause as a suffix paragraph preceded
by a blank line. -/
theorem compose_style_clause (dept style raw t : String)
    (ht : PROMPT_TEMPLATES.lookup dept = some t) (hraw : raw ≠ "") :
    composePrompt dept "None" raw = pyReplace t USER_PROMPT_PLACEHOLDER raw ∧
    (∀ d, style ≠ "None" → STYLE_DESCRIPTIONS.lookup style = some d →
      composePrompt dept style raw =
        pyReplace t USER_PROMPT_PLACEHOLDER raw ++ styleClause d) ∧
    (∀ d, styleClause d = "\n\nApply the style: " ++ d) := by
  refine ⟨?_, ?_, fun d => rfl⟩
  · simp [composePrompt, ht]
  · intro d hs hd
    simp [composePrompt, ht, hs, hd]

/-- Witness for C3: the General template with and without the
Cinematic style clause. -/
theorem compose_style_clause_witness :
    composePrompt "General" "None" "a red bicycle" =
      pyReplace ((PROMPT_TEMPLATES.lookup "General").getD "") USER_PROMPT_PLACEHOLDER
        "a red bicycle" ∧
    composePrompt "General" "Cinematic" "a red bicycle" =
      pyReplace ((PROMPT_TEMPLATES.lookup "General").getD "") USER_PROMPT_PLACEHOLDER
        "a red bicycle" ++ styleClause ((STYLE_DESCRIPTIONS.lookup "Cinematic").getD "") := by
  have h := compose_style_clause "General" "Cinematic" "a red bicycle"
    ((PROMPT_TEMPLATES.lookup "General").getD "") rfl (by decide)
  exact ⟨h.1, h.2.1 ((STYLE_DESCRIPTIONS.lookup "Cinematic").getD "") (by decide) rfl⟩

/-- C8: prompt composition is pure and deterministic — two invocations
with identical non-empty raw instruction, category and style yield
identical composed prompt text; no hidden state enters this layer. -/
theorem compose_deterministic (r1 c1 s1 r2 c2 s2 : String)
    (hne : r1 ≠ "") (hr : r1 = r2) (hc : c1 = c2) (hs : s1 = s2) :
    composePrompt c1 s1 r1 = composePrompt c2 s2 r2 := by
  subst hr; subst hc; subst hs; rfl

/-- Witness for C8: two identical invocations agree. -/
theorem compose_deterministic_witness :
    composePrompt "Marketing" "Vibrant" "poster" = composePrompt "Marketing" "Vibrant" "poster" :=
  compose_deterministic "poster" "Marketing" "Vibrant" "poster" "Marketing" "Vibrant"
    (by decide) rfl rfl rfl

theorem recentDisplay_spec {α : Type} (l : List α) :
    (recentDisplay l).length ≤ 20 ∧ recentDisplay l = l.reverse.take 20 := by
  constructor
  · simp only [recentDisplay, List.length_reverse, List.length_drop]
    omega
  · exact (List.take_reverse).symm

/-- C6: for both history stores the displayed recent sequence has at
most 20 entries and equals the first 20 entries of the reversed store
(most recent first), while the handlers only ever append to the
underlying stores — they are never truncated. -/
theorem history_display_capped_ordered :
    (∀ (l : List GenEntry),
      (recentDisplay l).length ≤ 20 ∧ recentDisplay l = l.reverse.take 20) ∧
    (∀ (l : List EditEntry),
      (recentDisplay l).length ≤ 20 ∧ recentDisplay l = l.reverse.take 20) ∧
    (∀ st dept style raw n ts tresp resps, ∃ tail,
      (genAction st dept style raw n ts tresp resps).state.generated_images =
        st.generated_images ++ tail) ∧
    (∀ st dept style raw base n tresp resps, ∃ tail,
      (editAction st dept style raw base n tresp resps).state.edited_images =
        st.edited_images ++ tail) := by
  refine ⟨fun l => recentDisplay_spec l, fun l => recentDisplay_spec l, ?_, ?_⟩
  · intro st dept style raw n ts tresp resps
    unfold genAction
    split
    · exact ⟨[], by simp⟩
    · exact ⟨_, rfl⟩
  · intro st dept style raw base n tresp resps
    unfold editAction
    split
    · exact ⟨[], by simp⟩
    · exact ⟨_, rfl⟩

/-- C7: when the k-th sequential generation request fails, the results
already extracted from the earlier successful requests are neither
rolled back nor retried — they are still displayed and appended to the
generated-images history, earlier history entries are untouched (the
old store is a prefix of the new one), the edited-images store is
unchanged, and the failure is surfaced as an error message. -/
theorem generate_partial_success (st : SessionState) (dept style raw ts : String)
    (tresp : TextResp) (oks : List (List PartModel)) (e : String)
    (rest : List (Except String (List PartModel)))
    (h : pyStrip raw ≠ "") :
    genAction st dept style raw (oks.map Except.ok ++ Except.error e :: rest).length ts tresp
        (oks.map Except.ok ++ Except.error e :: rest) =
      { state := { st with generated_images := st.generated_images ++
            (((oks.map (fun ps => collectBinary [] ps)).flatten).enum.map
              (fun p => GenEntry.mk (mkFilename dept style ts p.1) p.2)) },
        calls := RemoteCall.textModel (composePrompt dept style raw) ::
          List.replicate (oks.length + 1)
            (RemoteCall.imageModelText (pyStrip (safe_get_enhanced_text tresp))),
        warnings := [],
        errors := ["⚠️ Image generation error: " ++ e],
        displayed := (oks.map (fun ps => collectBinary [] ps)).flatten } := by
  unfold genAction
  rw [if_neg (by simpa using h)]
  simp only [List.take_length, genLoop_error_spec]

/-- Witness for C7: one successful request extracting `[7]` followed by
a failing request; the single result survives. -/
theorem generate_partial_success_witness :
    genAction (SessionState.mk [] []) "General" "None" "cat"
        (([[PartModel.mk (some [7]) none]].map Except.ok ++
          Except.error "boom" :: []).length) "t"
        (TextResp.mk (some "p") none "rep")
        ([[PartModel.mk (some [7]) none]].map Except.ok ++ Except.error "boom" :: []) =
      ActionOutput.mk
        (SessionState.mk
          ([] ++ ((([[PartModel.mk (some [7]) none]].map
              (fun ps => collectBinary [] ps)).flatten).enum.map
            (fun p => GenEntry.mk (mkFilename "General" "None" "t" p.1) p.2)))
          [])
        (RemoteCall.textModel (composePrompt "General" "None" "cat") ::
          List.replicate ([[PartModel.mk (some [7]) none]].length + 1)
            (RemoteCall.imageModelText
              (pyStrip (safe_get_enhanced_text (TextResp.mk (some "p") none "rep")))))
        []
        ["⚠️ Image generation error: " ++ "boom"]
        (([[PartModel.mk (some [7]) none]].map
          (fun ps => collectBinary [] ps)).flatten) :=
  generate_partial_success (SessionState.mk [] []) "General" "None" "cat" "t"
    (TextResp.mk (some "p") none "rep") [[PartModel.mk (some [7]) none]] "boom" []
    (by decide)

/-- C2 counterexample: a JPEG upload passes through the upload handler
unchanged, yet the binary part sent by the edit action carries the
fixed MIME type `image/png`, not the detected `image/jpeg`. -/
theorem edit_mime_not_detected_cex :
    callImageMimes (editAction (SessionState.mk [] []) "General" "None" "make it blue"
        (some (processUpload (fun l => l) (fun l => l) "image/jpeg" [9])) 1
        (TextResp.mk (some "p") none "rep") [[]]).calls = ["image/png"] ∧
    detectedMime "image/jpeg" = "image/jpeg" ∧
    ("image/png" : String) ≠ "image/jpeg" := by
  exact ⟨by rfl, by rfl, by decide⟩

theorem callImageMimes_map_edit (l : List (List PartModel)) (ins : String) (b : BinaryPart) :
    callImageMimes (l.map (fun _ => RemoteCall.imageModelEdit ins b)) =
      List.replicate l.length b.mime_type := by
  induction l with
  | nil => rfl
  | cons x xs ih =>
      simp only [List.map_cons, callImageMimes, List.filterMap_cons] at ih ⊢
      rw [ih]
      simp [List.replicate_succ]

theorem callImageDatas_map_edit (l : List (List PartModel)) (ins : String) (b : BinaryPart) :
    callImageDatas (l.map (fun _ => RemoteCall.imageModelEdit ins b)) =
      List.replicate l.length b.data := by
  induction l with
  | nil => rfl
  | cons x xs ih =>
      simp only [List.map_cons, callImageDatas, List.filterMap_cons] at ih ⊢
      rw [ih]
      simp [List.replicate_succ]

/-- C2 amended: every edit request carries the base image bytes as
binary content with the FIXED MIME type `image/png`, regardless of the
MIME type detected from the upload. -/
theorem edit_mime_fixed_png (st : SessionState) (dept style raw : String)
    (base : Option (List Nat)) (n : Nat) (tresp : TextResp)
    (resps : List (List PartModel))
    (hb : truthyBase base = true) (hraw : pyStrip raw ≠ "") :
    callImageMimes (editAction st dept style raw base n tresp resps).calls =
      List.replicate (resps.take n).length "image/png" ∧
    callImageDatas (editAction st dept style raw base n tresp resps).calls =
      List.replicate (resps.take n).length (base.getD []) := by
  unfold editAction
  rw [if_neg (by simp [hb, hraw])]
  constructor
  · show callImageMimes (RemoteCall.textModel _ :: (resps.take n).map _) = _
    simp only [callImageMimes, List.filterMap_cons]
    exact callImageMimes_map_edit (resps.take n) _ (editImagePart (base.getD []))
  · show callImageDatas (RemoteCall.textModel _ :: (resps.take n).map _) = _
    simp only [callImageDatas, List.filterMap_cons]
    exact callImageDatas_map_edit (resps.take n) _ (editImagePart (base.getD []))

/-- Witness for C2: a single edit request over base bytes `[9]`. -/
theorem edit_mime_fixed_png_witness :
    callImageMimes (editAction (SessionState.mk [] []) "General" "None" "blue"
        (some [9]) 1 (TextResp.mk (some "p") none "rep") [[]]).calls =
      List.replicate (([[]] : List (List PartModel)).take 1).length "image/png" ∧
    callImageDatas (editAction (SessionState.mk [] []) "General" "None" "blue"
        (some [9]) 1 (TextResp.mk (some "p") none "rep") [[]]).calls =
      List.replicate (([[]] : List (List PartModel)).take 1).length ((some [9]).getD []) :=
  edit_mime_fixed_png (SessionState.mk [] []) "General" "None" "blue" (some [9]) 1
    (TextResp.mk (some "p") none "rep") [[]] (by decide) (by decide)

/-- C10: an upload whose declared type resolves to `image/webp` is
re-encoded (RGB conversion, then PNG encoding) before use as the edit
base, while uploads of the other accepted declared types pass through
byte for byte. -/
theorem webp_reencode_passthrough (rgbConvert pngEncode : List Nat → List Nat)
    (ty : String) (b : List Nat) :
    (detectedMime ty = "image/webp" →
      processUpload rgbConvert pngEncode ty b = pngEncode (rgbConvert b)) ∧
    (ty ∈ (["image/png", "image/jpg", "image/jpeg"] : List String) →
      processUpload rgbConvert pngEncode ty b = b) := by
  constructor
  · intro h
    simp [processUpload, h]
  · intro h
    simp only [List.mem_cons, List.mem_singleton, List.not_mem_nil, or_false] at h
    rcases h with h | h | h <;> subst h <;>
      (unfold processUpload; rw [if_neg (by decide)])

/-- Witness for C10: a WebP upload is re-encoded, a JPEG upload passes
through unchanged. -/
theorem webp_reencode_passthrough_witness :
    processUpload (fun l => l) (fun l => 0 :: l) "image/webp" [5] = [0, 5] ∧
    processUpload (fun l => l) (fun l => 0 :: l) "image/jpeg" [5] = [5] :=
  ⟨(webp_reencode_passthrough (fun l => l) (fun l => 0 :: l) "image/webp" [5]).1 rfl,
   (webp_reencode_passthrough (fun l => l) (fun l => 0 :: l) "image/jpeg" [5]).2 (by decide)⟩

end StabImage
